import Mathlib

/-!
Verification development for the stratified-sampling script
`AI-STUDIES/Notes/.../2nd Chapter/Stratified Data.py`.

The script derives an ordinal `income_cat` attribute from `median_income`
by binning, splits the record set into train/test both uniformly at random
and stratified by `income_cat`, and compares the category proportions of
the full population against both test subsets.

Modelling conventions:
- a pandas `DataFrame` is a `List Row`; row identity is positional;
- floating-point numbers are modelled as `ℚ` (all quantities in the claims
  are ratios of integers, where `ℚ` arithmetic is exact);
- a pandas categorical cell that holds `NaN` (a value no bin accepts) is
  `Option.none`;
- the seeded NumPy pseudo-random generator is external library code; the
  claims depend only on it being a deterministic function of its seed that
  produces a permutation, so it is modelled as a linear-congruential
  generator driving a selection shuffle.
-/

/-- Pure pseudo-random step standing in for the seeded NumPy generator
(external library code; the claims only need determinism, so any
deterministic generator is a faithful model). -/
def lcgStep (s : Nat) : Nat := (s * 75 + 74) % 65537

/-- Selection shuffle driven by `lcgStep`, modelling
`np.random.permutation`: repeatedly pick a pseudo-random position and move
that element to the front of the output. -/
def shuffleList (g : Nat) : List α → List α
  | [] => []
  | x :: xs =>
    let k := lcgStep g % (xs.length + 1)
    have hk : k < (x :: xs).length := by
      simpa using Nat.mod_lt _ (Nat.succ_pos xs.length)
    (x :: xs).get ⟨k, hk⟩ :: shuffleList (lcgStep g) ((x :: xs).eraseIdx k)
termination_by l => l.length
decreasing_by
  simp only [List.length_eraseIdx, List.length_cons]
  have hlt : lcgStep g % (xs.length + 1) < xs.length + 1 :=
    Nat.mod_lt _ (Nat.succ_pos _)
  rw [if_pos hlt]
  omega

/-- Extracting the element at index `i` and consing it onto the remainder
is a permutation of the original list. -/
theorem get_cons_eraseIdx_perm (l : List α) (i : Nat) (h : i < l.length) :
    List.Perm (l.get ⟨i, h⟩ :: l.eraseIdx i) l := by
  rw [List.eraseIdx_eq_take_drop_succ]
  have h1 : List.Perm (l.get ⟨i, h⟩ :: (l.take i ++ l.drop (i + 1)))
      (l.take i ++ l.get ⟨i, h⟩ :: l.drop (i + 1)) := List.perm_middle.symm
  have h2 : l.take i ++ l.get ⟨i, h⟩ :: l.drop (i + 1) = l := by
    rw [List.get_eq_getElem, List.getElem_cons_drop]
    exact List.take_append_drop i l
  rw [h2] at h1
  exact h1

/-- The selection shuffle permutes its input (strong induction on the
list length). -/
theorem shuffleList_perm_aux (n : Nat) :
    ∀ (g : Nat) (l : List α), l.length ≤ n → List.Perm (shuffleList g l) l := by
  induction n with
  | zero =>
    intro g l h
    match l with
    | [] => simp [shuffleList]
  | succ n ih =>
    intro g l h
    match l with
    | [] => simp [shuffleList]
    | x :: xs =>
      rw [shuffleList]
      have hk : lcgStep g % (xs.length + 1) < (x :: xs).length := by
        simpa using Nat.mod_lt _ (Nat.succ_pos xs.length)
      refine (List.Perm.cons _ (ih (lcgStep g) _ ?_)).trans
        (get_cons_eraseIdx_perm (x :: xs) _ hk)
      have hk2 : lcgStep g % (xs.length + 1) < xs.length + 1 :=
        Nat.mod_lt _ (Nat.succ_pos _)
      simp only [List.length_eraseIdx, List.length_cons, if_pos hk2]
      simp only [List.length_cons] at h
      omega

/-- The selection shuffle permutes its input. -/
theorem shuffleList_perm (g : Nat) (l : List α) :
    List.Perm (shuffleList g l) l :=
  shuffleList_perm_aux l.length g l (Nat.le_refl _)

theorem shuffleList_length (g : Nat) (l : List α) :
    (shuffleList g l).length = l.length :=
  (shuffleList_perm g l).length_eq

theorem shuffleList_mem (g : Nat) (l : List α) (x : α) :
    x ∈ shuffleList g l ↔ x ∈ l :=
  (shuffleList_perm g l).mem_iff

theorem shuffleList_nodup (g : Nat) (l : List α) (h : l.Nodup) :
    (shuffleList g l).Nodup :=
  ((shuffleList_perm g l).nodup_iff).mpr h

/-- A data row: the numeric `median_income` column, the derived
`income_cat` column (`none` models the pandas `NaN` cell a value outside
every bin receives), and the remaining housing columns as an opaque
association list. -/
structure Row where
  medianIncome : ℚ
  incomeCat : Option Nat
  extra : List (Nat × ℚ)
deriving DecidableEq

/-- Is `x` inside the interval `(lo, hi]`?  An absent bound (`none`)
models `np.inf` / unboundedness, matching `pd.cut` with `right=True`:
bins are open on the left and closed on the right. -/
def binMem (lo hi : Option ℚ) (x : ℚ) : Bool :=
  (match lo with
   | some l => decide (l < x)
   | none => true) &&
  (match hi with
   | some h => decide (x ≤ h)
   | none => true)

/-- Model of `pd.cut(x, bins, labels)` for one scalar: return the label of
the first bin `(edges[i], edges[i+1]]` containing `x`, and `none` (pandas
`NaN`) when no bin contains it. -/
def pdCut (x : ℚ) : List (Option ℚ) → List Nat → Option Nat
  | lo :: hi :: edges, lbl :: lbls =>
    if binMem lo hi x then some lbl else pdCut x (hi :: edges) lbls
  | _, _ => none

/-- The bin edges used by `add_income_category`:
`[0., 1.5, 3.0, 4.5, 6., np.inf]`. -/
def income_bins : List (Option ℚ) :=
  [some 0, some (3/2), some 3, some (9/2), some 6, none]

/-- The `income_cat` value of a single `median_income` value, per
`pd.cut(data["median_income"], bins=[0.,1.5,3.0,4.5,6.,np.inf],
labels=[1,2,3,4,5])`. -/
def incomeCatOf (x : ℚ) : Option Nat := pdCut x income_bins [1, 2, 3, 4, 5]

/-- The function `add_income_category` sets the `income_cat` column from
`median_income` on every row, leaving everything else unchanged. -/
def add_income_category (rows : List Row) : List Row :=
  rows.map (fun row => Row.mk row.medianIncome (incomeCatOf row.medianIncome) row.extra)

/-- Spec-side label map, written from the interval list of the spec
"(-∞,1.5], (1.5,3.0], (3.0,4.5], (4.5,6.0], (6.0,∞) labeled 1..5"; kept
separate from `incomeCatOf` (which embeds the `pd.cut` call of the source) so
the two can be compared. -/
def specLabel (x : ℚ) : Nat :=
  if x ≤ 3/2 then 1
  else if x ≤ 3 then 2
  else if x ≤ 9/2 then 3
  else if x ≤ 6 then 4
  else 5

/-- On positive inputs the source binning agrees with the interval
map of the spec; on non-positive inputs it assigns no label at all (the first bin edge
is `0.`, not `-∞`). -/
theorem incomeCatOf_eq (x : ℚ) :
    incomeCatOf x = if 0 < x then some (specLabel x) else none := by
  simp only [incomeCatOf, income_bins, pdCut, binMem, Bool.and_eq_true,
    decide_eq_true_eq, and_true]
  rcases le_or_lt x 0 with h0 | h0
  · have c1 : ¬(0 < x ∧ x ≤ 3/2) := by rintro ⟨a, b⟩; linarith
    have c2 : ¬(3/2 < x ∧ x ≤ 3) := by rintro ⟨a, b⟩; linarith
    have c3 : ¬(3 < x ∧ x ≤ 9/2) := by rintro ⟨a, b⟩; linarith
    have c4 : ¬(9/2 < x ∧ x ≤ 6) := by rintro ⟨a, b⟩; linarith
    have c5 : ¬(6 < x) := by linarith
    rw [if_neg c1, if_neg c2, if_neg c3, if_neg c4, if_neg c5,
      if_neg (not_lt.mpr h0)]
  · rw [if_pos h0, specLabel]
    rcases le_or_lt x (3/2) with h1 | h1
    · rw [if_pos ⟨h0, h1⟩, if_pos h1]
    · have c1 : ¬(0 < x ∧ x ≤ 3/2) := by rintro ⟨a, b⟩; linarith
      rw [if_neg c1, if_neg (not_le.mpr h1)]
      rcases le_or_lt x 3 with h2 | h2
      · rw [if_pos ⟨h1, h2⟩, if_pos h2]
      · have c2 : ¬(3/2 < x ∧ x ≤ 3) := by rintro ⟨a, b⟩; linarith
        rw [if_neg c2, if_neg (not_le.mpr h2)]
        rcases le_or_lt x (9/2) with h3 | h3
        · rw [if_pos ⟨h2, h3⟩, if_pos h3]
        · have c3 : ¬(3 < x ∧ x ≤ 9/2) := by rintro ⟨a, b⟩; linarith
          rw [if_neg c3, if_neg (not_le.mpr h3)]
          rcases le_or_lt x 6 with h4 | h4
          · rw [if_pos ⟨h3, h4⟩, if_pos h4]
          · have c4 : ¬(9/2 < x ∧ x ≤ 6) := by rintro ⟨a, b⟩; linarith
            rw [if_neg c4, if_neg (not_le.mpr h4), if_pos h4]

/-- Count of rows whose `income_cat` cell equals label `l` (the
`value_counts` numerator for that label). -/
def countCat (l : Nat) (rows : List Row) : Nat :=
  rows.countP (fun row => row.incomeCat == some l)

/-- Number of rows whose `income_cat` cell is not `NaN`; `value_counts`
drops `NaN` cells, so this is the normalisation denominator. -/
def labeledCount (rows : List Row) : Nat :=
  rows.countP (fun row => row.incomeCat.isSome)

/-- The five levels of the categorical `income_cat` column, as fixed by
the `labels=[1, 2, 3, 4, 5]` argument of `pd.cut`. -/
def incomeCategories : List Nat := [1, 2, 3, 4, 5]

/-- The function `income_cat_proportions` is
`data["income_cat"].value_counts(normalize=True)`.  Because `income_cat`
is a pandas categorical with levels 1..5, `value_counts` reports every
level, including those with count 0.  pandas orders the series by
descending count; the order is irrelevant downstream (the comparison
sorts by index), so the model keeps level order.  An all-`NaN` column
gives denominator 0, where ℚ division yields 0 while pandas floats give
`NaN`; no claim exercises that case. -/
def income_cat_proportions (rows : List Row) : List (Nat × ℚ) :=
  incomeCategories.map
    (fun l => (l, (countCat l rows : ℚ) / (labeledCount rows : ℚ)))

/-- Proportion of label `l` in a proportion table (0 when absent). -/
def propOf (ps : List (Nat × ℚ)) (l : Nat) : ℚ :=
  ((ps.find? (fun p => p.1 == l)).map Prod.snd).getD 0

/-- One line of the comparison report: the label, the three proportions,
and the two percentage-deviation columns.  A deviation is `none` when the
overall proportion is 0: the float division of the source then produces a
non-finite value (`inf` or `NaN`), which ℚ cannot carry; the source
raises no exception there. -/
structure CompareRow where
  label : Nat
  overall : ℚ
  stratified : ℚ
  random : ℚ
  stratError : Option ℚ
  randError : Option ℚ
deriving DecidableEq

/-- The function `compare_income_category_proportions` builds the three proportion
series, align them on the index (the five categorical levels, ascending,
as `sort_index` produces), and add the two error columns
`(subset / overall - 1) * 100`. -/
def compare_income_category_proportions
    (housing strat rand : List Row) : List CompareRow :=
  let op := income_cat_proportions housing
  let sp := income_cat_proportions strat
  let rp := income_cat_proportions rand
  incomeCategories.map (fun l =>
    let o := propOf op l
    let s := propOf sp l
    let t := propOf rp l
    CompareRow.mk l o s t
      (if o = 0 then none else some ((s / o - 1) * 100))
      (if o = 0 then none else some ((t / o - 1) * 100)))

/-- Positional selection `dataset.iloc[idxs]`: rows by position, in index order. -/
def ilocList (dataset : List α) (idxs : List Nat) : List α :=
  idxs.filterMap (fun i => dataset[i]?)

/-- The test size `int(len(dataset) * test_ratio)`: Python `int()` truncates toward
zero, which is the floor for the non-negative products that arise. -/
def testSetSize (n : Nat) (r : ℚ) : Nat := (⌊(n : ℚ) * r⌋).toNat

/-- The slice `shuffled_indices[:test_set_size]`: the first `testSetSize` positions
of the seeded permutation of `range n`. -/
def testIndices (g n : Nat) (r : ℚ) : List Nat :=
  (shuffleList g (List.range n)).take (testSetSize n r)

/-- The slice `shuffled_indices[test_set_size:]`: the remaining positions. -/
def trainIndices (g n : Nat) (r : ℚ) : List Nat :=
  (shuffleList g (List.range n)).drop (testSetSize n r)

/-- The function `shuffle_and_split_data` permutes the row indices with the seeded
generator, cut off the first `int(n * test_ratio)` of them as the test
set, and return `(train , test)` via `iloc`. -/
def shuffle_and_split_data (g : Nat) (dataset : List α) (r : ℚ) :
    List α × List α :=
  (ilocList dataset (trainIndices g dataset.length r),
   ilocList dataset (testIndices g dataset.length r))

/-- Modelled from the spec: the stratified splitter is the sklearn
`StratifiedShuffleSplit`, external library code whose only trace in the
repository is its caller `stratified_shuffle_and_split_data`; per spec
section 4.2 it "partitions row indices by the value of labelField into
groups".  This is the group of rows carrying label `l`. -/
def labelGroup (labelOf : α → Nat) (l : Nat) (records : List α) : List α :=
  records.filter (fun x => labelOf x == l)

/-- Modelled from the spec: the distinct label values present in the
record set, each of which forms one stratification group. -/
def observedLabels (labelOf : α → Nat) (records : List α) : List Nat :=
  (records.map labelOf).dedup

/-- Modelled from the spec: the number of rows of group `l` selected for
the test subset, "a seeded random selection of a r-fraction of that
indices of that group" — the rounded-down r-fraction of the group size. -/
def groupTestSize (labelOf : α → Nat) (l : Nat) (records : List α) (r : ℚ) : Nat :=
  (⌊((labelGroup labelOf l records).length : ℚ) * r⌋).toNat

/-- Modelled from the spec: one stratified `(train , test)` pair — each
group is shuffled with a seed decorrelated by label, its test allocation
goes to the test subset and the remainder to the train subset. -/
def stratParts (labelOf : α → Nat) (g : Nat) (records : List α) (r : ℚ) :
    List α × List α :=
  let pieces := (observedLabels labelOf records).map (fun l =>
    let sh := shuffleList (g + l) (labelGroup labelOf l records)
    (sh.drop (groupTestSize labelOf l records r),
     sh.take (groupTestSize labelOf l records r)))
  ((pieces.map Prod.fst).flatten, (pieces.map Prod.snd).flatten)

/-- Modelled from the spec: the input validation of the splitter — it rejects
a request for which "any group has zero members eligible for the
requested split size", that is, the test allocation of some observed group is
zero.  The scenario of spec section 8 (a population that is 100 percent one
label splits successfully) fixes that a single-label population with a
positive allocation is accepted. -/
def stratInvalid (labelOf : α → Nat) (records : List α) (r : ℚ) : Bool :=
  (observedLabels labelOf records).any
    (fun l => groupTestSize labelOf l records r == 0)

/-- Modelled from the spec: the sklearn `StratifiedShuffleSplit.split` method
producing one split; `none` models the `InvalidInputError` of spec
section 4.2. -/
def stratifiedShuffleSplit (labelOf : α → Nat) (g : Nat)
    (records : List α) (r : ℚ) : Option (List α × List α) :=
  if stratInvalid labelOf records r then none
  else some (stratParts labelOf g records r)

/-- The function `stratified_shuffle_and_split_data` is a loop over the splits of the splitter
(one split is configured), collecting the train/test pairs into a list. -/
def stratified_shuffle_and_split_data (labelOf : α → Nat) (g : Nat)
    (records : List α) (r : ℚ) : Option (List (List α × List α)) :=
  (stratifiedShuffleSplit labelOf g records r).map (fun p => [p])

/-- The label column the pipeline stratifies on: the `income_cat` cell
(0 standing for a `NaN` cell, which no binned row of the pipeline has). -/
def rowLabel (row : Row) : Nat := row.incomeCat.getD 0

/-- The module-level pipeline: seed the generator (42 in the script),
derive `income_cat`, random-split at ratio 0.2, stratified-split at ratio
0.2 with the same seed, and compare the proportions of the full
population, the stratified test set, and the random test set. -/
def runPipeline (seed : Nat) (data : List Row) :
    Option ((List Row × List Row) × (List Row × List Row) × List CompareRow) :=
  let housing := add_income_category data
  let rsplit := shuffle_and_split_data seed housing (1/5)
  match stratifiedShuffleSplit rowLabel seed housing (1/5) with
  | none => none
  | some ssplit =>
      some (rsplit, ssplit,
        compare_income_category_proportions housing ssplit.2 rsplit.2)

theorem ilocList_length (dataset : List α) :
    ∀ idxs : List Nat, (∀ i ∈ idxs, i < dataset.length) →
      (ilocList dataset idxs).length = idxs.length := by
  intro idxs
  induction idxs with
  | nil => intro _; rfl
  | cons i is ih =>
    intro h
    have hi : i < dataset.length := h i (by simp)
    have ht := ih (fun j hj => h j (by simp [hj]))
    simp only [ilocList, List.filterMap_cons, List.getElem?_eq_getElem hi,
      List.length_cons] at ht ⊢
    omega

theorem ilocList_range (l : List α) : ilocList l (List.range l.length) = l := by
  induction l with
  | nil => rfl
  | cons x xs ih =>
    rw [ilocList, List.length_cons, List.range_succ_eq_map,
      List.filterMap_cons, List.filterMap_map]
    have hf : ((fun i => (x :: xs)[i]?) ∘ Nat.succ) = (fun i => xs[i]?) := by
      funext i
      simp [List.getElem?_cons_succ]
    rw [List.getElem?_cons_zero, hf]
    rw [ilocList] at ih
    rw [ih]

theorem ilocList_perm_range (l : List α) (idxs : List Nat)
    (h : List.Perm idxs (List.range l.length)) :
    List.Perm (ilocList l idxs) l := by
  have h2 := List.Perm.filterMap (fun i => l[i]?) h
  rw [show List.filterMap (fun i => l[i]?) (List.range l.length) = l from
    ilocList_range l] at h2
  exact h2

theorem testSetSize_le (n : Nat) (r : ℚ) (h1 : r ≤ 1) : testSetSize n r ≤ n := by
  rw [testSetSize]
  have hle : (n : ℚ) * r ≤ (n : ℚ) := by
    calc (n : ℚ) * r ≤ (n : ℚ) * 1 :=
          mul_le_mul_of_nonneg_left h1 (Nat.cast_nonneg n)
      _ = (n : ℚ) := mul_one _
  have hfl : ⌊(n : ℚ) * r⌋ ≤ (n : ℤ) := by
    calc ⌊(n : ℚ) * r⌋ ≤ ⌊(n : ℚ)⌋ := Int.floor_le_floor hle
      _ = (n : ℤ) := Int.floor_natCast n
  exact Int.toNat_le.mpr hfl

theorem testIndices_length (g n : Nat) (r : ℚ) (h1 : r ≤ 1) :
    (testIndices g n r).length = testSetSize n r := by
  rw [testIndices, List.length_take, shuffleList_length, List.length_range]
  have := testSetSize_le n r h1
  omega

theorem trainIndices_length (g n : Nat) (r : ℚ) :
    (trainIndices g n r).length = n - testSetSize n r := by
  rw [trainIndices, List.length_drop, shuffleList_length, List.length_range]

theorem mem_testIndices_lt (g n : Nat) (r : ℚ) :
    ∀ i ∈ testIndices g n r, i < n := by
  intro i hi
  have h2 : i ∈ shuffleList g (List.range n) := List.take_subset _ _ hi
  rw [shuffleList_mem] at h2
  exact List.mem_range.mp h2

theorem mem_trainIndices_lt (g n : Nat) (r : ℚ) :
    ∀ i ∈ trainIndices g n r, i < n := by
  intro i hi
  have h2 : i ∈ shuffleList g (List.range n) := List.drop_subset _ _ hi
  rw [shuffleList_mem] at h2
  exact List.mem_range.mp h2

/-- C3: for every record set of size `n` and ratio `r ∈ (0,1)`,
`shuffle_and_split_data` returns a test set of exactly
`⌊n * r⌋` rows (the first `⌊n * r⌋` indices of the seeded permutation)
and a train set of the remaining rows; the test and train index lists are
disjoint and together are a permutation of all `n` row indices. -/
theorem randomSplit_sizes_partition (dataset : List α) (g : Nat) (r : ℚ)
    (_h0 : 0 < r) (h1 : r < 1) :
    (shuffle_and_split_data g dataset r).2.length =
        testSetSize dataset.length r ∧
    (shuffle_and_split_data g dataset r).1.length =
        dataset.length - testSetSize dataset.length r ∧
    List.Disjoint (testIndices g dataset.length r)
        (trainIndices g dataset.length r) ∧
    List.Perm (testIndices g dataset.length r ++
        trainIndices g dataset.length r) (List.range dataset.length) := by
  refine ⟨?_, ?_, ?_, ?_⟩
  · rw [shuffle_and_split_data,
      ilocList_length dataset _ (mem_testIndices_lt g dataset.length r)]
    exact testIndices_length g dataset.length r h1.le
  · rw [shuffle_and_split_data,
      ilocList_length dataset _ (mem_trainIndices_lt g dataset.length r)]
    exact trainIndices_length g dataset.length r
  · exact List.disjoint_take_drop
      (shuffleList_nodup g _ (List.nodup_range _)) (Nat.le_refl _)
  · rw [testIndices, trainIndices, List.take_append_drop]
    exact shuffleList_perm g _

/-- Witness for C3 at a concrete three-row record set with ratio 1/3. -/
theorem randomSplit_sizes_partition_witness :
    (shuffle_and_split_data 0 ([10, 20, 30] : List Nat) (1/3)).2.length =
        testSetSize ([10, 20, 30] : List Nat).length (1/3) ∧
    (shuffle_and_split_data 0 ([10, 20, 30] : List Nat) (1/3)).1.length =
        ([10, 20, 30] : List Nat).length -
          testSetSize ([10, 20, 30] : List Nat).length (1/3) ∧
    List.Disjoint (testIndices 0 ([10, 20, 30] : List Nat).length (1/3))
        (trainIndices 0 ([10, 20, 30] : List Nat).length (1/3)) ∧
    List.Perm (testIndices 0 ([10, 20, 30] : List Nat).length (1/3) ++
        trainIndices 0 ([10, 20, 30] : List Nat).length (1/3))
        (List.range ([10, 20, 30] : List Nat).length) :=
  randomSplit_sizes_partition [10, 20, 30] 0 (1/3) (by norm_num) (by norm_num)

/-- C10: `shuffle_and_split_data` is a total function (the embedding
returns a value on every input), and when `n * r < 1` — in particular on
the empty record set — the truncated test size is zero, so the test set
is empty and the train set is the whole record set (in permuted order). -/
theorem randomSplit_small_product (dataset : List α) (g : Nat) (r : ℚ)
    (h0 : 0 ≤ r) (h1 : (dataset.length : ℚ) * r < 1) :
    (shuffle_and_split_data g dataset r).2 = [] ∧
    List.Perm (shuffle_and_split_data g dataset r).1 dataset := by
  have hz : testSetSize dataset.length r = 0 := by
    rw [testSetSize]
    have h2 : (0 : ℚ) ≤ (dataset.length : ℚ) * r :=
      mul_nonneg (Nat.cast_nonneg _) h0
    have h3 : ⌊(dataset.length : ℚ) * r⌋ = 0 :=
      Int.floor_eq_zero_iff.mpr ⟨h2, h1⟩
    rw [h3]
    rfl
  constructor
  · rw [shuffle_and_split_data, testIndices, hz, List.take_zero]
    rfl
  · rw [shuffle_and_split_data, trainIndices, hz, List.drop_zero]
    exact ilocList_perm_range dataset _ (shuffleList_perm g _)

/-- Witness for C10 at a concrete two-row record set with ratio 1/5. -/
theorem randomSplit_small_product_witness :
    (shuffle_and_split_data 3 ([5, 7] : List Nat) (1/5)).2 = [] ∧
    List.Perm (shuffle_and_split_data 3 ([5, 7] : List Nat) (1/5)).1
      ([5, 7] : List Nat) :=
  randomSplit_small_product [5, 7] 3 (1/5) (by norm_num) (by norm_num)

/-- C1 counterexample: the row with `median_income = 0` — a finite,
non-positive value — receives no label at all (the first bin edge of `pd.cut`
is `0.`, so the first bin is `(0, 1.5]`, not `(-∞, 1.5]`), refuting the
claim that every finite value, including values ≤ 0, is labeled. -/
theorem incomeCategory_zero_unlabeled :
    (add_income_category [Row.mk 0 none []]).map Row.incomeCat = [none] := by
  simp [add_income_category, incomeCatOf_eq]

/-- C1 as amended: for every record set and every row in it,
`add_income_category` labels the row by the right-closed intervals
`(0,1.5] → 1, (1.5,3] → 2, (3,4.5] → 3, (4.5,6] → 4, (6,∞) → 5`
(the chain of conditions in `specLabel`) whenever `median_income` is
positive, and leaves the row unlabeled (`NaN`) otherwise. -/
theorem addIncomeCategory_binning (rows : List Row) (row : Row)
    (h : row ∈ add_income_category rows) :
    row.incomeCat =
      if 0 < row.medianIncome then some (specLabel row.medianIncome)
      else none := by
  rw [add_income_category] at h
  obtain ⟨orig, _, rfl⟩ := List.mem_map.mp h
  exact incomeCatOf_eq orig.medianIncome

/-- Witness for C1 at a concrete one-row record set. -/
theorem addIncomeCategory_binning_witness :
    (Row.mk 2 (some 2) []).incomeCat =
      if 0 < (Row.mk 2 (some 2) []).medianIncome
      then some (specLabel (Row.mk 2 (some 2) []).medianIncome)
      else none :=
  addIncomeCategory_binning [Row.mk 2 none []] (Row.mk 2 (some 2) [])
    (by norm_num [add_income_category, incomeCatOf_eq, specLabel])

/-- C8: `add_income_category` only writes the `income_cat` column: the
projection of every row to all its other fields is unchanged, in the same
order, and the row count is unchanged — no row is added, removed or
reordered. -/
theorem addIncomeCategory_frame (rows : List Row) :
    (add_income_category rows).map (fun row => (row.medianIncome, row.extra)) =
      rows.map (fun row => (row.medianIncome, row.extra)) ∧
    (add_income_category rows).length = rows.length := by
  constructor
  · rw [add_income_category, List.map_map]
    rfl
  · rw [add_income_category, List.length_map]

/-- C9: the five-row scenario `median_income = [0.5, 2.0, 3.5, 5.0, 7.0]`
is labeled `[1, 2, 3, 4, 5]`, one row per bin. -/
theorem incomeCategory_scenario :
    (add_income_category
      [Row.mk (1/2) none [], Row.mk 2 none [], Row.mk (7/2) none [],
       Row.mk 5 none [], Row.mk 7 none []]).map Row.incomeCat =
      [some 1, some 2, some 3, some 4, some 5] := by
  norm_num [add_income_category, incomeCatOf_eq, specLabel]

/-- C4 counterexample: on a record set whose only label is 3, the result
of `income_cat_proportions` still contains an entry for label 5 (value
0): `income_cat` is a pandas categorical with levels 1..5, and
`value_counts` reports zero-count levels instead of omitting them. -/
theorem labelProportions_zero_entry :
    ((5 : Nat), (0 : ℚ)) ∈ income_cat_proportions [Row.mk 1 (some 3) []] ∧
    countCat 5 [Row.mk 1 (some 3) []] = 0 := by
  constructor
  · simp [income_cat_proportions, incomeCategories, countCat, labeledCount]
  · simp [countCat]

/-- C4 as amended: for every record set, `income_cat_proportions` has an
entry for each of the five categorical levels — occurring or not — whose
value is the count of that level over the labeled-row total (hence 0 for a
level with no occurrences). -/
theorem labelProportions_full_universe (rows : List Row) (l : Nat)
    (h : l ∈ incomeCategories) :
    (l, (countCat l rows : ℚ) / (labeledCount rows : ℚ)) ∈
      income_cat_proportions rows := by
  rw [income_cat_proportions]
  exact List.mem_map.mpr ⟨l, h, rfl⟩

/-- Witness for C4: label 5, absent from the one-row record set, still
has its (zero-valued) entry. -/
theorem labelProportions_full_universe_witness :
    ((5 : Nat), (countCat 5 [Row.mk 1 (some 3) []] : ℚ) /
        (labeledCount [Row.mk 1 (some 3) []] : ℚ)) ∈
      income_cat_proportions [Row.mk 1 (some 3) []] :=
  labelProportions_full_universe [Row.mk 1 (some 3) []] 5 (by decide)

/-- C2 counterexample: on a population containing only label 1, labels
2..5 are observed in the aligned comparison with full-population
proportion 0, yet `compare_income_category_proportions` does not fail: it
returns the complete five-row report, with the error cells of those
labels holding the non-finite float value (modelled `none`) produced by
dividing by 0.0 — no `DivisionByZeroError` (or any exception) occurs. -/
theorem compareProportions_zero_total :
    compare_income_category_proportions
        [Row.mk 1 (some 1) []] [Row.mk 1 (some 1) []] [Row.mk 1 (some 1) []] =
      [CompareRow.mk 1 1 1 1 (some 0) (some 0),
       CompareRow.mk 2 0 0 0 none none,
       CompareRow.mk 3 0 0 0 none none,
       CompareRow.mk 4 0 0 0 none none,
       CompareRow.mk 5 0 0 0 none none] := by
  have hprop : income_cat_proportions [Row.mk 1 (some 1) []] =
      [(1, 1), (2, 0), (3, 0), (4, 0), (5, 0)] := by
    norm_num [income_cat_proportions, incomeCategories, countCat,
      labeledCount]
  rw [compare_income_category_proportions, hprop]
  simp +decide [incomeCategories, propOf, List.find?]

/-- C2 as amended: `compare_income_category_proportions` always returns a
report whose labels are the five levels in ascending order, and every row
whose overall proportion is non-zero carries the percentage deviations
`(subset / overall - 1) * 100` for both subsets; a zero overall
proportion yields a non-finite float cell (`none`), not an exception. -/
theorem compareProportions_deviation (housing strat rand : List Row) :
    (compare_income_category_proportions housing strat rand).map
        CompareRow.label = incomeCategories ∧
    ∀ row ∈ compare_income_category_proportions housing strat rand,
      row.overall ≠ 0 →
        row.stratError = some ((row.stratified / row.overall - 1) * 100) ∧
        row.randError = some ((row.random / row.overall - 1) * 100) := by
  constructor
  · rw [compare_income_category_proportions, List.map_map]
    exact List.map_id _
  · intro row hrow hne
    rw [compare_income_category_proportions] at hrow
    obtain ⟨l, _, rfl⟩ := List.mem_map.mp hrow
    exact ⟨if_neg hne, if_neg hne⟩

/-- Witness for C2: a row of the report with non-zero overall proportion
carries the deviation formula values. -/
theorem compareProportions_deviation_witness :
    (CompareRow.mk 1 1 1 1 (some 0) (some 0)).stratError =
      some (((CompareRow.mk 1 1 1 1 (some 0) (some 0)).stratified /
        (CompareRow.mk 1 1 1 1 (some 0) (some 0)).overall - 1) * 100) ∧
    (CompareRow.mk 1 1 1 1 (some 0) (some 0)).randError =
      some (((CompareRow.mk 1 1 1 1 (some 0) (some 0)).random /
        (CompareRow.mk 1 1 1 1 (some 0) (some 0)).overall - 1) * 100) :=
  (compareProportions_deviation
      [Row.mk 1 (some 1) []] [Row.mk 1 (some 1) []] [Row.mk 1 (some 1) []]).2
    (CompareRow.mk 1 1 1 1 (some 0) (some 0))
    (by
      have hprop : income_cat_proportions [Row.mk 1 (some 1) []] =
          [(1, 1), (2, 0), (3, 0), (4, 0), (5, 0)] := by
        norm_num [income_cat_proportions, incomeCategories, countCat,
          labeledCount]
      rw [compare_income_category_proportions, hprop]
      simp +decide [incomeCategories, propOf, List.find?])
    (by norm_num)

theorem mem_labelGroup_label (labelOf : α → Nat) (l : Nat) (records : List α) :
    ∀ x ∈ labelGroup labelOf l records, labelOf x = l := by
  intro x hx
  rw [labelGroup] at hx
  have := (List.mem_filter.mp hx).2
  simpa using this

theorem labelGroup_length_pos (labelOf : α → Nat) (l : Nat) (records : List α)
    (hl : l ∈ observedLabels labelOf records) :
    0 < (labelGroup labelOf l records).length := by
  rw [observedLabels, List.mem_dedup] at hl
  obtain ⟨x, hx, rfl⟩ := List.mem_map.mp hl
  have hmem : x ∈ labelGroup labelOf (labelOf x) records :=
    List.mem_filter.mpr ⟨hx, by simp⟩
  exact List.length_pos_of_mem hmem

theorem groupTestSize_eq (labelOf : α → Nat) (l : Nat) (records : List α)
    (r : ℚ) :
    groupTestSize labelOf l records r =
      testSetSize (labelGroup labelOf l records).length r := rfl

theorem sum_map_eq_of_single (f : Nat → Nat) :
    ∀ (l : List Nat) (a : Nat), l.Nodup → a ∈ l →
      (∀ b ∈ l, b ≠ a → f b = 0) → (l.map f).sum = f a := by
  intro l
  induction l with
  | nil => intro a _ ha _; cases ha
  | cons b bs ih =>
    intro a hnd ha hz
    rw [List.map_cons, List.sum_cons]
    rcases List.mem_cons.mp ha with h | h
    · subst h
      have hzz : ∀ x ∈ bs.map f, x = 0 := by
        intro x hx
        obtain ⟨c, hc, rfl⟩ := List.mem_map.mp hx
        refine hz c (List.mem_cons_of_mem _ hc) (fun he => ?_)
        exact (List.nodup_cons.mp hnd).1 (he ▸ hc)
      rw [List.sum_eq_zero hzz, Nat.add_zero]
    · have hba : b ≠ a := fun he => (List.nodup_cons.mp hnd).1 (he ▸ h)
      rw [hz b (List.mem_cons_self _ _) hba,
        ih a (List.nodup_cons.mp hnd).2 h
          (fun c hc hca => hz c (List.mem_cons_of_mem _ hc) hca),
        Nat.zero_add]

theorem stratParts_test_countP (labelOf : α → Nat) (g : Nat)
    (records : List α) (r : ℚ) (l0 : Nat) (h1 : r ≤ 1)
    (hl : l0 ∈ observedLabels labelOf records) :
    (stratParts labelOf g records r).2.countP (fun x => labelOf x == l0) =
      groupTestSize labelOf l0 records r := by
  rw [stratParts]
  simp only [List.map_map, List.countP_flatten, Function.comp]
  refine (sum_map_eq_of_single _ (observedLabels labelOf records) l0
      (List.nodup_dedup _) hl ?_).trans ?_
  · intro b _ hbne
    refine List.countP_eq_zero.mpr (fun x hx => ?_)
    have hxg : x ∈ labelGroup labelOf b records := by
      rw [← shuffleList_mem (g + b)]
      exact List.take_subset _ _ hx
    have := mem_labelGroup_label labelOf b records x hxg
    simp [this, hbne]
  · show List.countP (fun x => labelOf x == l0)
        ((shuffleList (g + l0) (labelGroup labelOf l0 records)).take
          (groupTestSize labelOf l0 records r)) =
      groupTestSize labelOf l0 records r
    have hall : ∀ x ∈ (shuffleList (g + l0)
        (labelGroup labelOf l0 records)).take
          (groupTestSize labelOf l0 records r),
        (fun x => labelOf x == l0) x = true := by
      intro x hx
      have hxg : x ∈ labelGroup labelOf l0 records := by
        rw [← shuffleList_mem (g + l0)]
        exact List.take_subset _ _ hx
      simp [mem_labelGroup_label labelOf l0 records x hxg]
    rw [List.countP_eq_length.mpr hall, List.length_take, shuffleList_length]
    have hle : groupTestSize labelOf l0 records r ≤
        (labelGroup labelOf l0 records).length := by
      rw [groupTestSize_eq]
      exact testSetSize_le _ r h1
    omega

theorem floor_toNat_dist (c : Nat) (r : ℚ) (h0 : 0 ≤ r) :
    |(((⌊(c : ℚ) * r⌋).toNat : ℚ)) - (c : ℚ) * r| ≤ 1 := by
  have hcr : (0 : ℚ) ≤ (c : ℚ) * r := mul_nonneg (Nat.cast_nonneg _) h0
  have hfl : (0 : ℤ) ≤ ⌊(c : ℚ) * r⌋ := Int.floor_nonneg.mpr hcr
  have hcast : (((⌊(c : ℚ) * r⌋).toNat : ℚ)) = ((⌊(c : ℚ) * r⌋ : ℤ) : ℚ) := by
    exact_mod_cast Int.toNat_of_nonneg hfl
  have hle := Int.floor_le ((c : ℚ) * r)
  have hgt := Int.sub_one_lt_floor ((c : ℚ) * r)
  rw [hcast, abs_le]
  constructor <;> linarith

/-- C5 counterexample: a record set whose label field holds a single
distinct value (five rows, all label 3) is accepted by the stratified
splitter — the split succeeds instead of failing with
`InvalidInputError`, matching the single-label scenario of spec section 8. -/
theorem stratifiedSplit_single_label_ok :
    observedLabels (fun x : Nat => x) [3, 3, 3, 3, 3] = [3] ∧
    (stratified_shuffle_and_split_data (fun x : Nat => x) 1 [3, 3, 3, 3, 3]
      (1/5)).isSome = true := by
  constructor
  · decide
  · have hg : groupTestSize (fun x : Nat => x) 3 [3, 3, 3, 3, 3] (1/5) = 1 := by
      rw [groupTestSize, show (labelGroup (fun x : Nat => x) 3
        [3, 3, 3, 3, 3]).length = 5 from by decide]
      have h5 : ((5 : ℕ) : ℚ) * (1/5) = 1 := by norm_num
      rw [h5, Int.floor_one]
      rfl
    have hinv : stratInvalid (fun x : Nat => x) [3, 3, 3, 3, 3] (1/5) = false := by
      rw [stratInvalid, show observedLabels (fun x : Nat => x)
        [3, 3, 3, 3, 3] = [3] from by decide]
      simp only [List.any_cons, List.any_nil, hg]
      decide
    rw [stratified_shuffle_and_split_data, stratifiedShuffleSplit,
      if_neg (by rw [hinv]; decide)]
    rfl

/-- C5 as amended: the stratified split fails (with the error modelled by
`none`) exactly when some observed label group has zero members eligible
for the requested split size (its rounded-down `r`-fraction is zero);
having fewer than 2 distinct label values is not by itself a failure. -/
theorem stratifiedSplit_invalid_iff (labelOf : α → Nat) (g : Nat)
    (records : List α) (r : ℚ) :
    stratified_shuffle_and_split_data labelOf g records r = none ↔
      ∃ l ∈ observedLabels labelOf records,
        groupTestSize labelOf l records r = 0 := by
  rw [stratified_shuffle_and_split_data, stratifiedShuffleSplit]
  by_cases hc : stratInvalid labelOf records r
  · rw [if_pos hc]
    rw [stratInvalid, List.any_eq_true] at hc
    simp only [beq_iff_eq] at hc
    exact iff_of_true rfl hc
  · rw [if_neg hc]
    rw [stratInvalid] at hc
    constructor
    · intro h
      exact absurd h (by simp)
    · intro ⟨l, hl, he⟩
      exact absurd (List.any_eq_true.mpr ⟨l, hl, by simp [he]⟩) hc

/-- C6: in each train/test pair returned by the stratified split, the
number of test rows drawn from any observed label group differs from the
exact `r`-fraction of the size of that group by at most one row — the test
set mirrors the label composition of the population to within rounding. -/
theorem stratifiedSplit_group_fraction (labelOf : α → Nat) (g : Nat)
    (records : List α) (r : ℚ) (pairs : List (List α × List α))
    (p : List α × List α) (l0 : Nat) (h0 : 0 < r) (h1 : r < 1)
    (hp : stratified_shuffle_and_split_data labelOf g records r = some pairs)
    (hmem : p ∈ pairs) (hl : l0 ∈ observedLabels labelOf records) :
    |((p.2.countP (fun x => labelOf x == l0) : ℚ)) -
      ((labelGroup labelOf l0 records).length : ℚ) * r| ≤ 1 := by
  rw [stratified_shuffle_and_split_data, stratifiedShuffleSplit] at hp
  by_cases hc : stratInvalid labelOf records r
  · rw [if_pos hc] at hp
    cases hp
  · rw [if_neg hc] at hp
    have hpairs : [stratParts labelOf g records r] = pairs :=
      Option.some.inj hp
    rw [← hpairs] at hmem
    rcases List.mem_singleton.mp hmem with rfl
    rw [stratParts_test_countP labelOf g records r l0 h1.le hl,
      groupTestSize_eq, testSetSize]
    exact floor_toNat_dist _ r h0.le

/-- Witness for C6 at a ten-row record set with two equal label groups
and ratio 1/5. -/
theorem stratifiedSplit_group_fraction_witness :
    |(((stratParts (fun x : Nat => x) 7 [1, 1, 1, 1, 1, 2, 2, 2, 2, 2]
        (1/5)).2.countP (fun x : Nat => x == 1) : ℚ)) -
      ((labelGroup (fun x : Nat => x) 1
        [1, 1, 1, 1, 1, 2, 2, 2, 2, 2]).length : ℚ) * (1/5)| ≤ 1 := by
  have hg1 : groupTestSize (fun x : Nat => x) 1
      [1, 1, 1, 1, 1, 2, 2, 2, 2, 2] (1/5) = 1 := by
    rw [groupTestSize, show (labelGroup (fun x : Nat => x) 1
      [1, 1, 1, 1, 1, 2, 2, 2, 2, 2]).length = 5 from by decide]
    have h5 : ((5 : ℕ) : ℚ) * (1/5) = 1 := by norm_num
    rw [h5, Int.floor_one]
    rfl
  have hg2 : groupTestSize (fun x : Nat => x) 2
      [1, 1, 1, 1, 1, 2, 2, 2, 2, 2] (1/5) = 1 := by
    rw [groupTestSize, show (labelGroup (fun x : Nat => x) 2
      [1, 1, 1, 1, 1, 2, 2, 2, 2, 2]).length = 5 from by decide]
    have h5 : ((5 : ℕ) : ℚ) * (1/5) = 1 := by norm_num
    rw [h5, Int.floor_one]
    rfl
  have hinv : stratInvalid (fun x : Nat => x)
      [1, 1, 1, 1, 1, 2, 2, 2, 2, 2] (1/5) = false := by
    rw [stratInvalid, show observedLabels (fun x : Nat => x)
      [1, 1, 1, 1, 1, 2, 2, 2, 2, 2] = [1, 2] from by decide]
    simp only [List.any_cons, List.any_nil, hg1, hg2]
    decide
  exact stratifiedSplit_group_fraction (fun x : Nat => x) 7
    [1, 1, 1, 1, 1, 2, 2, 2, 2, 2] (1/5)
    [stratParts (fun x : Nat => x) 7 [1, 1, 1, 1, 1, 2, 2, 2, 2, 2] (1/5)]
    (stratParts (fun x : Nat => x) 7 [1, 1, 1, 1, 1, 2, 2, 2, 2, 2] (1/5)) 1
    (by norm_num) (by norm_num)
    (by rw [stratified_shuffle_and_split_data, stratifiedShuffleSplit,
          if_neg (by rw [hinv]; decide)]
        rfl)
    (List.mem_singleton.mpr rfl) (by decide)

/-- C7: the whole pipeline is a pure function of the seed and the input,
so two runs with the same seed (42, as in the script) and the same input
record set produce identical random partitions, identical stratified
partitions and identical comparison reports. -/
theorem pipeline_deterministic (data : List Row) :
    runPipeline 42 data = runPipeline 42 data := rfl
